import Mathlib

/-!
# Verification of the TraderIA trading-session orchestrator

A shallow embedding, in Lean 4, of the parts of the TraderIA repository that
the specification's testable properties are about:

* the lesson-memory store (`local_memory_system.py`): lesson records, the
  seeded store, `add_lesson`, `get_recent_lessons`, `load_memory` and
  `_restore_from_backup`;
* the MT5 file channel (`complete_trading_system.py` and
  `trading_system_calude_ai.py`): `send_command_to_mt5`, `read_mt5_status`
  with its encoding-fallback loop, and `_calculate_pips_result`;
* the Claude decision validation (`claude_trader.py`): `_validate_decision`
  and `_fallback_decision`;
* the trade-monitoring loop (`trading_system_calude_ai.py`).

Modelling conventions: Python strings become `String` (byte-level file
contents become `List Nat`); Python's stable `list.sort(key=..., reverse=True)`
becomes `List.insertionSort` with a total order (insertion sort is stable and
every stable sort computes the same function); prices, which Python holds as
IEEE floats, are modelled as exact fractions `Dec` (on the decimal inputs
appearing in the claims the float and the exact computation render
identically under Python's one-decimal formatting); `datetime.now()` results
are passed in as explicit parameters.
-/

/-! ## Decimal-digit helpers (Python `f"{n:03d}"` and number rendering) -/

/-- Little-endian decimal digits of `n`, via explicit fuel so that the
definition is structurally recursive (and hence kernel-evaluable).
`digitsRevFuel f n` is the digit list of `n` whenever `n ≤ f`. -/
def digitsRevFuel : Nat → Nat → List Nat
  | 0, _ => []
  | fuel + 1, n => if n = 0 then [] else n % 10 :: digitsRevFuel fuel (n / 10)

/-- The character for a decimal digit. -/
def digitChar (d : Nat) : Char := Char.ofNat (48 + d)

/-- Decimal rendering of a natural number (Python `str(n)` on a nonnegative
int). -/
def natStr (n : Nat) : String :=
  if n = 0 then "0" else String.mk ((digitsRevFuel n n).reverse.map digitChar)

/-- Python `f"{n:03d}"`: decimal rendering zero-padded on the left to width
three (wider numbers are rendered unpadded). -/
def pad3 (n : Nat) : String :=
  let ds := if n = 0 then ['0'] else (digitsRevFuel n n).reverse.map digitChar
  String.mk (List.replicate (3 - ds.length) '0' ++ ds)

/-- Value of a little-endian decimal digit list. -/
def digitsVal : List Nat → Nat
  | [] => 0
  | d :: ds => d + 10 * digitsVal ds

/-- Reading a digit character back as its value. -/
def charVal (c : Char) : Nat := c.toNat - 48

/-- Fold a big-endian digit-character list into a number. -/
def charsVal (l : List Char) : Nat := l.foldl (fun a c => 10 * a + charVal c) 0

/-! ## Exact decimal fractions standing in for Python floats -/

/-- An unreduced fraction `num / den` (`den` is positive in every use).
This stands in for the Python `float` values flowing through the price
fields; arithmetic on it is exact. -/
structure Dec where
  num : Int
  den : Nat
  deriving DecidableEq, Repr

/-- `a - b` on fractions. -/
def decSub (a b : Dec) : Dec := ⟨a.num * b.den - b.num * a.den, a.den * b.den⟩

/-- Multiplication by a natural constant (the `* 10000` pip scaling). -/
def decMulNat (a : Dec) (k : Nat) : Dec := ⟨a.num * k, a.den⟩

/-- `0 < a` for a fraction with positive denominator. -/
def decPos (a : Dec) : Bool := 0 < a.num

/-- `a ≤ 0` for a fraction with positive denominator. -/
def decNonpos (a : Dec) : Bool := a.num ≤ 0

def decZero : Dec := ⟨0, 1⟩

/-- Python `f"{x:.1f}"` on an exact fraction: round `10 * x` to the nearest
integer (ties to even, as IEEE-backed formatting does), then print with one
decimal place. -/
def fmt1 (a : Dec) : String :=
  let d : Int := (a.den : Int)
  let q : Int := Int.ediv (a.num * 10) d
  let r : Int := a.num * 10 - q * d
  let m : Int :=
    if 2 * r < d then q
    else if 2 * r > d then q + 1
    else if q % 2 = 0 then q else q + 1
  let neg : Bool := m < 0 || (m == 0 && a.num < 0)
  (if neg then "-" else "") ++ natStr (m.natAbs / 10) ++ "." ++ natStr (m.natAbs % 10)

/-! ## Python string primitives (ASCII-faithful, kernel-evaluable) -/

/-- The characters Python's `str.strip()` removes (the code points below
`0x3001` for which Python's `str.isspace()` holds). -/
def isPySpace (c : Char) : Bool :=
  c.toNat ∈ [9, 10, 11, 12, 13, 28, 29, 30, 31, 32, 0x85, 0xA0, 0x1680,
    0x2000, 0x2001, 0x2002, 0x2003, 0x2004, 0x2005, 0x2006, 0x2007, 0x2008,
    0x2009, 0x200A, 0x2028, 0x2029, 0x202F, 0x205F, 0x3000]

/-- Python `str.strip()` on a character list. -/
def pyStripList (l : List Char) : List Char :=
  ((l.dropWhile isPySpace).reverse.dropWhile isPySpace).reverse

/-- Python `str.strip()`. -/
def pyStrip (s : String) : String := String.mk (pyStripList s.data)

/-- Python `str.upper()` restricted to ASCII (every string it is applied to
in the sources is ASCII). -/
def pyUpperChar (c : Char) : Char :=
  if 'a' ≤ c && c ≤ 'z' then Char.ofNat (c.toNat - 32) else c

def pyUpper (s : String) : String := String.mk (s.data.map pyUpperChar)

/-- Python `str.isdigit()` on ASCII content: nonempty and all characters
`0`-`9`. -/
def pyIsDigit (l : List Char) : Bool :=
  !l.isEmpty && l.all (fun c => '0' ≤ c && c ≤ '9')

/-- Numeric value of an ASCII digit string (used only under `pyIsDigit`). -/
def digitsToNat (l : List Char) : Nat := l.foldl (fun a c => 10 * a + charVal c) 0

/-- `content.split('|')` on a character list: Python `str.split` with a
one-character separator. -/
def splitOnPipe : List Char → List (List Char)
  | [] => [[]]
  | c :: t =>
    if c = '|' then [] :: splitOnPipe t
    else
      match splitOnPipe t with
      | [] => [[c]]
      | h :: r => (c :: h) :: r

/-- Substring test: does `l` start with `pat`? -/
def listStartsWith : List Char → List Char → Bool
  | _, [] => true
  | [], _ :: _ => false
  | a :: as, b :: bs => a = b && listStartsWith as bs

/-- Python `pat in s` on strings: `pat` occurs as a contiguous substring. -/
def listContainsSub (pat : List Char) : List Char → Bool
  | [] => listStartsWith [] pat
  | c :: t => listStartsWith (c :: t) pat || listContainsSub pat t

def strContainsSub (s pat : String) : Bool := listContainsSub pat.data s.data

/-! ## Lesson store (`local_memory_system.py`) -/

/-- One lesson record, as built by `ensure_memory_file` (seed lessons, no
creation timestamp) and `add_lesson` (which adds `created_timestamp`). -/
structure Lesson where
  id : String
  date : String
  pair : String
  type : String
  context : String
  rule : String
  result : String
  relevance : Int
  tags : List String
  created_timestamp : Option String := none
  deriving DecidableEq, Repr

/-- The persisted aggregate (`metadata` bookkeeping is not modelled: no
claim depends on it). -/
structure MemoryData where
  lessons : List Lesson
  last_lesson_id : Nat
  deriving DecidableEq, Repr

/-- The six seed lessons written by `ensure_memory_file` when the store file
is absent. -/
def seedLessons : List Lesson :=
  [ { id := "L001", date := "2024-12-15", pair := "EURUSD", type := "Estructura",
      context := "H4 lateral sin dirección clara, sin HH/HL definidos",
      rule := "No operar si H4 no muestra estructura cristalina - evitar rangos",
      result := "WAIT", relevance := 5, tags := ["estructura", "h4", "lateral"] },
    { id := "L002", date := "2024-12-16", pair := "EURUSD", type := "Timing",
      context := "Estructura bullish OK pero precio en resistencia histórica",
      rule := "No comprar techos sin zona de demanda clara - esperar retroceso",
      result := "WAIT", relevance := 4, tags := ["timing", "resistencia", "entry"] },
    { id := "L003", date := "2024-12-17", pair := "EURUSD", type := "Setup Completo",
      context := "H4 bullish + H1 break estructura + M15 order block",
      rule := "Cascada completa = alta probabilidad de éxito",
      result := "+22 pips", relevance := 5, tags := ["cascada", "order_block", "win"] },
    { id := "L004", date := "2024-12-18", pair := "EURUSD", type := "Risk Management",
      context := "Trade ganador, movió SL a BE prematuramente",
      rule := "Dejar correr winners - SL a BE solo después de 1:1 RR",
      result := "BE (podría haber sido +30)", relevance := 4,
      tags := ["risk_management", "sl", "be"] },
    { id := "L005", date := "2024-12-19", pair := "EURUSD", type := "Zona Rota",
      context := "Order block identificado pero precio lo rompió violentamente",
      rule := "No forzar trades cuando zona falla - respetar el mercado",
      result := "WAIT", relevance := 5, tags := ["order_block", "zona_rota", "discipline"] },
    { id := "L006", date := "2024-12-20", pair := "EURUSD", type := "Sistema",
      context := "Memoria evitó repetir error de timing en resistencia",
      rule := "Sistema de memoria funciona para evitar errores recurrentes",
      result := "No Loss", relevance := 5, tags := ["memoria", "sistema", "avoided_loss"] } ]

/-- The seeded store: `last_lesson_id = 6`. -/
def seedMemory : MemoryData := ⟨seedLessons, 6⟩

def emptyMemory : MemoryData := ⟨[], 0⟩

/-- The filter step of `get_recent_lessons`: relevance threshold, optional
exact type match (skipped when `lesson_type` is falsy in Python, i.e. absent
or empty), optional any-tag match (skipped when `tags` is falsy). -/
def lessonPasses (min_relevance : Int) (lesson_type : Option String)
    (tags : Option (List String)) (l : Lesson) : Bool :=
  !(l.relevance < min_relevance) &&
  (match lesson_type with
   | none => true
   | some t => if t = "" then true else l.type == t) &&
  (match tags with
   | none => true
   | some ts => if ts.isEmpty then true else ts.any (fun t => l.tags.contains t))

/-- Python string comparison `s < t` (lexicographic by code point), written
as a structurally recursive boolean so that concrete instances evaluate in
the kernel; `pyStrLt_iff` below identifies it with `String.lt`. -/
def pyStrLtList : List Char → List Char → Bool
  | [], [] => false
  | [], _ :: _ => true
  | _ :: _, [] => false
  | a :: as, b :: bs =>
    if a < b then true else if b < a then false else pyStrLtList as bs

def pyStrLt (s t : String) : Bool := pyStrLtList s.data t.data

/-- The sort relation of `get_recent_lessons`:
`filtered_lessons.sort(key=lambda x: x.get("date",""), reverse=True)` keeps
`a` before `b` exactly when `b`'s date is not above `a`'s. -/
def dateGe (a b : Lesson) : Prop := pyStrLt a.date b.date = false

instance : DecidableRel dateGe := fun a b => by unfold dateGe; infer_instance

/-- `get_recent_lessons`: filter, stable sort by date descending (Python's
`list.sort` is stable; `List.insertionSort` computes the same stable sort),
truncate to `limit`. -/
def get_recent_lessons (lessons : List Lesson) (limit : Nat) (min_relevance : Int)
    (lesson_type : Option String) (tags : Option (List String)) : List Lesson :=
  (List.insertionSort dateGe
    (lessons.filter (lessonPasses min_relevance lesson_type tags))).take limit

/-- The inputs of one `add_lesson` call (`date` and `created_timestamp` are
the `datetime.now()` values, passed explicitly). -/
structure LessonInput where
  pair : String
  type : String
  context : String
  rule : String
  result : String
  relevance : Int
  tags : List String
  date : String
  created_timestamp : String
  deriving DecidableEq, Repr

/-- The `new_lesson` record `add_lesson` builds: id `L{last_lesson_id+1:03d}`,
today's date, upper-cased pair, stripped `context`/`rule`. -/
def newLessonOf (mem : MemoryData) (inp : LessonInput) : Lesson :=
  { id := "L" ++ pad3 (mem.last_lesson_id + 1), date := inp.date,
    pair := pyUpper inp.pair, type := inp.type, context := pyStrip inp.context,
    rule := pyStrip inp.rule, result := inp.result, relevance := inp.relevance,
    tags := inp.tags, created_timestamp := some inp.created_timestamp }

/-- `add_lesson`: validate (`ValueError` on an empty required field or an
out-of-range relevance), assign `id = L{last_lesson_id+1:03d}`, append,
bump the counter, return the new id. -/
def add_lesson (mem : MemoryData) (inp : LessonInput) :
    Except String (MemoryData × String) :=
  if inp.pair = "" ∨ inp.type = "" ∨ inp.context = "" ∨ inp.rule = "" ∨
      inp.result = "" then
    Except.error "All lesson fields are required"
  else if ¬ (1 ≤ inp.relevance ∧ inp.relevance ≤ 5) then
    Except.error "Relevance must be between 1 and 5"
  else
    Except.ok (⟨mem.lessons ++ [newLessonOf mem inp], mem.last_lesson_id + 1⟩,
      "L" ++ pad3 (mem.last_lesson_id + 1))

/-- A sequence of `add_lesson` calls; `none` when one of them raises. -/
def addLessonsAll : MemoryData → List LessonInput → Option MemoryData
  | mem, [] => some mem
  | mem, i :: is =>
    match add_lesson mem i with
    | Except.ok (m, _) => addLessonsAll m is
    | Except.error _ => none

/-- A valid `add_lesson` input: required text fields nonempty, relevance in
`[1,5]`. -/
def validInput (inp : LessonInput) : Prop :=
  inp.pair ≠ "" ∧ inp.type ≠ "" ∧ inp.context ≠ "" ∧ inp.rule ≠ "" ∧
    inp.result ≠ "" ∧ 1 ≤ inp.relevance ∧ inp.relevance ≤ 5

instance (inp : LessonInput) : Decidable (validInput inp) := by
  unfold validInput; infer_instance

/-! ## Store loading and backup restoration (`load_memory`,
`_restore_from_backup`) -/

/-- What `json.load` can yield for the store file: a decode error, a
non-dictionary top level, or a dictionary with optional `lessons` and
`last_lesson_id` entries. -/
inductive JsonContent
  | malformed
  | nonDict
  | dict (lessons : Option (List Lesson)) (last_lesson_id : Option Nat)
  deriving DecidableEq, Repr

/-- The empty-but-valid store returned by the fallback handlers,
`{"lessons": [], "last_lesson_id": 0, "metadata": {}}`. -/
def emptyJson : JsonContent := JsonContent.dict (some []) (some 0)

/-- The seeded store file content written by `ensure_memory_file`. -/
def seedJson : JsonContent := JsonContent.dict (some seedLessons) (some 6)

/-- `max(backup_files, key=mtime)`: first maximal element under strict
improvement, as Python's `max` computes it. -/
def maxByMtime : List (Nat × JsonContent) → Option (Nat × JsonContent)
  | [] => none
  | b :: rest => some (rest.foldl (fun acc x => if acc.1 < x.1 then x else acc) b)

/-- `_restore_from_backup`: pick the newest backup; any failure on the way
(no backup, undecodable backup, failing re-save) is caught and yields the
empty store; a successful `json.load` of the backup is returned as-is,
without structural validation. -/
def restore_from_backup (backups : List (Nat × JsonContent)) (saveFail : Bool) :
    JsonContent :=
  match maxByMtime backups with
  | none => emptyJson
  | some (_, JsonContent.malformed) => emptyJson
  | some (_, j) => if saveFail then emptyJson else j

/-- `load_memory`: an absent primary is (re)seeded and re-read; a JSON
decode error goes to `_restore_from_backup`; any other exception — in
particular the `ValueError` raised when the parse result is not a
dictionary — is caught by the generic handler, which returns the empty
store; a dictionary gets missing `lessons`/`last_lesson_id` entries filled
in. The function is total: no path re-raises to the caller. -/
def load_memory (primary : Option JsonContent) (backups : List (Nat × JsonContent))
    (saveFail : Bool) : JsonContent :=
  match primary with
  | none => seedJson
  | some JsonContent.malformed => restore_from_backup backups saveFail
  | some JsonContent.nonDict => emptyJson
  | some (JsonContent.dict ls lid) => JsonContent.dict (some (ls.getD [])) (some (lid.getD 0))

/-! ## Python `float()` on price fields -/

def isDigitChar (c : Char) : Bool := '0' ≤ c && c ≤ '9'

/-- The decimal fragment of Python `float()`: optional sign, digits with at
most one decimal point, at least one digit (exponents, `inf`/`nan` and
surrounding whitespace never occur in the status fields and are not
modelled). -/
def pyFloatCore (l : List Char) : Option Dec :=
  let signed : Int × List Char :=
    match l with
    | '+' :: t => (1, t)
    | '-' :: t => (-1, t)
    | t => (1, t)
  let ip := signed.2.takeWhile (fun c => c ≠ '.')
  match signed.2.dropWhile (fun c => c ≠ '.') with
  | [] =>
    if pyIsDigit ip then some ⟨signed.1 * digitsToNat ip, 1⟩ else none
  | _ :: fp =>
    if ip.all isDigitChar && fp.all isDigitChar && !(ip.isEmpty && fp.isEmpty) then
      some ⟨signed.1 * (digitsToNat ip * 10 ^ fp.length + digitsToNat fp), 10 ^ fp.length⟩
    else none

def pyFloat (s : String) : Option Dec := pyFloatCore s.data

/-- `_safe_float_parse` (identical in both trading-system files): `0.0` for
a falsy or `"0"` input, `float(value)` otherwise, every exception caught and
turned into `0.0`. -/
def safe_float_parse (s : String) : Dec :=
  if s = "" || s = "0" then decZero else (pyFloat s).getD decZero

/-! ## Status-file decoding (`read_mt5_status` encoding-fallback loop) -/

def contByte (b : Nat) : Bool := 0x80 ≤ b && b ≤ 0xBF

/-- One code point of strict UTF-8, as Python's `bytes.decode('utf-8')`
accepts it: rejects truncated sequences, stray continuation bytes, overlong
forms, surrogates and out-of-range code points. Returns the code point and
the remaining bytes. -/
def utf8Step (b : Nat) (bs : List Nat) : Option (Nat × List Nat) :=
  if b < 0x80 then some (b, bs)
  else if 0xC2 ≤ b ∧ b ≤ 0xDF then
    match bs with
    | b1 :: r =>
      if contByte b1 then some ((b - 0xC0) * 0x40 + (b1 - 0x80), r) else none
    | _ => none
  else if 0xE0 ≤ b ∧ b ≤ 0xEF then
    match bs with
    | b1 :: b2 :: r =>
      let lo := if b = 0xE0 then 0xA0 else 0x80
      let hi := if b = 0xED then 0x9F else 0xBF
      if (lo ≤ b1 ∧ b1 ≤ hi) ∧ contByte b2 = true then
        some ((b - 0xE0) * 0x1000 + (b1 - 0x80) * 0x40 + (b2 - 0x80), r)
      else none
    | _ => none
  else if 0xF0 ≤ b ∧ b ≤ 0xF4 then
    match bs with
    | b1 :: b2 :: b3 :: r =>
      let lo := if b = 0xF0 then 0x90 else 0x80
      let hi := if b = 0xF4 then 0x8F else 0xBF
      if (lo ≤ b1 ∧ b1 ≤ hi) ∧ contByte b2 = true ∧ contByte b3 = true then
        some ((b - 0xF0) * 0x40000 + (b1 - 0x80) * 0x1000 +
          (b2 - 0x80) * 0x40 + (b3 - 0x80), r)
      else none
    | _ => none
  else none

/-- Strict UTF-8 decoding via `utf8Step`; the fuel is the byte count (each
step consumes at least one byte, so the fuel never runs out). -/
def utf8DecodeGo : Nat → List Nat → Option (List Char)
  | _, [] => some []
  | 0, _ :: _ => none
  | fuel + 1, b :: bs =>
    match utf8Step b bs with
    | none => none
    | some (cp, rest) => (utf8DecodeGo fuel rest).map (fun cs => Char.ofNat cp :: cs)

def utf8Decode (bs : List Nat) : Option (List Char) := utf8DecodeGo bs.length bs

/-- `bytes.decode('ascii')`: succeeds exactly on 7-bit content. -/
def decodeAscii (bs : List Nat) : Option (List Char) :=
  if bs.all (fun b => b < 0x80) then some (bs.map Char.ofNat) else none

/-- `bytes.decode('latin1')`: total, byte value = code point. -/
def decodeLatin1 (bs : List Nat) : Option (List Char) :=
  some (bs.map Char.ofNat)

/-- One byte of `bytes.decode('cp1252')` (bytes `0x81, 0x8D, 0x8F, 0x90,
0x9D` are undefined in cp1252 and error). -/
def cp1252Byte (b : Nat) : Option Nat :=
  if b < 0x80 || 0xA0 ≤ b then some b
  else match b with
  | 0x80 => some 0x20AC | 0x82 => some 0x201A | 0x83 => some 0x0192
  | 0x84 => some 0x201E | 0x85 => some 0x2026 | 0x86 => some 0x2020
  | 0x87 => some 0x2021 | 0x88 => some 0x02C6 | 0x89 => some 0x2030
  | 0x8A => some 0x0160 | 0x8B => some 0x2039 | 0x8C => some 0x0152
  | 0x8E => some 0x017D | 0x91 => some 0x2018 | 0x92 => some 0x2019
  | 0x93 => some 0x201C | 0x94 => some 0x201D | 0x95 => some 0x2022
  | 0x96 => some 0x2013 | 0x97 => some 0x2014 | 0x98 => some 0x02DC
  | 0x99 => some 0x2122 | 0x9A => some 0x0161 | 0x9B => some 0x203A
  | 0x9C => some 0x0153 | 0x9E => some 0x017E | _ => none

def decodeCp1252 : List Nat → Option (List Char)
  | [] => some []
  | b :: bs =>
    match cp1252Byte b with
    | none => none
    | some v => (decodeCp1252 bs).map (fun cs => Char.ofNat v :: cs)

/-- The ordered decode attempts of `read_mt5_status`: for each of
`['ascii', 'utf-8', 'latin1', 'cp1252']` in turn, read and `strip()`; accept
the first result that is nonempty and entirely 7-bit (`all(ord(c) < 128)`);
`none` when every attempt is rejected (and hence the `for`'s exhaustion
branch returns the `UNREADABLE` sentinel). -/
def tryDecodings : List (List Nat → Option (List Char)) → List Nat → Option String
  | [], _ => none
  | d :: ds, bs =>
    match d bs with
    | some cs =>
      let content := pyStripList cs
      if !content.isEmpty && content.all (fun c => c.toNat < 128) then
        some (String.mk content)
      else tryDecodings ds bs
    | none => tryDecodings ds bs

def decodeLoop (bs : List Nat) : Option String :=
  tryDecodings [decodeAscii, utf8Decode, decodeLatin1, decodeCp1252] bs

/-- The byte content of an ASCII text file. -/
def strBytes (s : String) : List Nat := s.data.map Char.toNat

/-! ## Status records -/

/-- A decoded (or sentinel) MT5 status. Python's sentinel dicts carry only
`status` and `message`; here the remaining fields hold defaults and
`raw_data = none` marks a sentinel (a successful parse always sets
`raw_data`, as the sources do). -/
structure StatusData where
  status : String
  ticket : Nat
  entry : Dec
  sl : Dec
  tp : Dec
  timestamp : String
  message : String
  raw_data : Option String
  is_active : Bool
  direction : Option String
  deriving DecidableEq, Repr

def mkSentinel (st msg : String) : StatusData :=
  ⟨st, 0, decZero, decZero, decZero, "", msg, none, false, none⟩

/-- `read_mt5_status` of `complete_trading_system.py`: absent file, decode
loop, the (dead) `EMPTY` guard, minimum six `|`-fields, lenient numeric
parsing, and `is_active`/`direction` derived only for the two `*_ACTIVE`
statuses. The inner `except (ValueError, IndexError)` handler is not
modelled: on all-ASCII content `int(parts[1])` is only called when
`parts[1].isdigit()`, so that handler cannot fire. -/
def read_mt5_status (file : Option (List Nat)) : StatusData :=
  match file with
  | none => mkSentinel "FILE_NOT_FOUND" "Status file does not exist"
  | some bs =>
    match decodeLoop bs with
    | none => mkSentinel "UNREADABLE" "File contains unreadable data"
    | some status_line =>
      if status_line = "" then mkSentinel "EMPTY" "Status file is empty or unreadable"
      else
        match splitOnPipe status_line.data with
        | p0 :: p1 :: p2 :: p3 :: p4 :: p5 :: rest =>
          let status := String.mk p0
          { status := status,
            ticket := if pyIsDigit p1 then digitsToNat p1 else 0,
            entry := safe_float_parse (String.mk p2),
            sl := safe_float_parse (String.mk p3),
            tp := safe_float_parse (String.mk p4),
            timestamp := String.mk p5,
            message := match rest with | [] => "" | m :: _ => String.mk m,
            raw_data := some status_line,
            is_active := status = "LONG_ACTIVE" || status = "SHORT_ACTIVE",
            direction :=
              if status = "LONG_ACTIVE" || status = "SHORT_ACTIVE" then
                some (if strContainsSub status "LONG" then "LONG" else "SHORT")
              else none }
        | _ => mkSentinel "PARSE_ERROR" ("Invalid format: " ++ status_line)

/-- `read_mt5_status` of `trading_system_calude_ai.py`: same loop, no
`EMPTY` guard, and `direction` derived by substring search over every
status value. -/
def read_mt5_status_ai (file : Option (List Nat)) : StatusData :=
  match file with
  | none => mkSentinel "FILE_NOT_FOUND" "Status file does not exist"
  | some bs =>
    match decodeLoop bs with
    | none => mkSentinel "UNREADABLE" "File contains unreadable data"
    | some status_line =>
      match splitOnPipe status_line.data with
      | p0 :: p1 :: p2 :: p3 :: p4 :: p5 :: rest =>
        let status := String.mk p0
        { status := status,
          ticket := if pyIsDigit p1 then digitsToNat p1 else 0,
          entry := safe_float_parse (String.mk p2),
          sl := safe_float_parse (String.mk p3),
          tp := safe_float_parse (String.mk p4),
          timestamp := String.mk p5,
          message := match rest with | [] => "" | m :: _ => String.mk m,
          raw_data := some status_line,
          is_active := status = "LONG_ACTIVE" || status = "SHORT_ACTIVE",
          direction :=
            if strContainsSub status "LONG" then some "LONG"
            else if strContainsSub status "SHORT" then some "SHORT"
            else none }
      | _ => mkSentinel "PARSE_ERROR" ("Invalid format: " ++ status_line)

/-- `_calculate_pips_result` (`trading_system_calude_ai.py`; the inline pip
computation of `generate_post_trade_lesson` in `complete_trading_system.py`
is the same arithmetic and formatting). -/
def calculate_pips_result (t : StatusData) : String :=
  if decNonpos t.entry then "N/A"
  else if t.status == "TP_HIT" && decPos t.tp then
    (if t.direction == some "LONG" then
      "+" ++ fmt1 (decMulNat (decSub t.tp t.entry) 10000) ++ " pips"
    else
      "+" ++ fmt1 (decMulNat (decSub t.entry t.tp) 10000) ++ " pips")
  else if t.status == "SL_HIT" && decPos t.sl then
    (if t.direction == some "LONG" then
      fmt1 (decMulNat (decSub t.sl t.entry) 10000) ++ " pips"
    else
      fmt1 (decMulNat (decSub t.entry t.sl) 10000) ++ " pips")
  else "N/A"

/-! ## Command channel (`send_command_to_mt5`, identical behaviour in both
trading-system files) -/

inductive Command
  | wait | long | short | close
  deriving DecidableEq, Repr

/-- The single-character wire code of each command. -/
def commandCode : Command → String
  | Command.wait => "1"
  | Command.long => "2"
  | Command.short => "3"
  | Command.close => "4"

/-- `send_command_to_mt5`: reject anything outside `{"1","2","3","4"}`
without touching the file; any I/O failure (modelled by the `ioError` flag)
is caught and reported as `false`; otherwise the file's entire contents are
replaced by the command character and the call reports `true`. -/
def send_command_to_mt5 (commandFile : String) (command : String) (ioError : Bool) :
    String × Bool :=
  if !(["1", "2", "3", "4"].contains command) then (commandFile, false)
  else if ioError then (commandFile, false)
  else (command, true)

/-! ## Decision validation (`claude_trader.py`) -/

/-- A JSON value sitting in the payload's `confidence` slot: an integer, a
float (exact decimal standing in for the IEEE value), a string, a boolean,
or anything else (`null`, lists, objects — everything `int()` rejects with
a `TypeError`). -/
inductive ConfValue
  | int (n : Int)
  | float (q : Dec)
  | str (s : String)
  | bool (b : Bool)
  | other
  deriving DecidableEq, Repr

/-- Truncation toward zero, Python `int()` on a float. -/
def decTrunc (a : Dec) : Int :=
  if 0 ≤ a.num then Int.ofNat (a.num.toNat / a.den)
  else - Int.ofNat ((- a.num).toNat / a.den)

/-- Python `int()` on a string: optional sign then digits (surrounding
whitespace and digit-group underscores never occur in these payloads and
are not modelled); anything else — including `"10.5"` — raises. -/
def pyIntOfString (s : String) : Option Int :=
  match s.data with
  | '+' :: t => if pyIsDigit t then some (Int.ofNat (digitsToNat t)) else none
  | '-' :: t => if pyIsDigit t then some (- Int.ofNat (digitsToNat t)) else none
  | t => if pyIsDigit t then some (Int.ofNat (digitsToNat t)) else none

/-- Python `int()` on a payload value: identity on ints, truncation toward
zero on floats, digit-string parsing, `True`/`False` to `1`/`0`; `none`
when it raises (`ValueError`/`TypeError`). -/
def pyIntOf : ConfValue → Option Int
  | ConfValue.int n => some n
  | ConfValue.float q => some (decTrunc q)
  | ConfValue.str s => pyIntOfString s
  | ConfValue.bool b => some (if b then 1 else 0)
  | ConfValue.other => none

/-- The shape-relevant part of a decision payload: each field is absent or
present; a present `confidence` carries its raw JSON value, converted only
inside `validate_decision` as `int()` does. -/
structure DecisionData where
  decision : Option String
  reasoning : Option String
  confidence : Option ConfValue
  deriving DecidableEq, Repr

/-- `_validate_decision`: all of `decision`, `reasoning`, `confidence`
present; `decision` one of `"1"`-`"4"`; `int(confidence)` converts without
raising and lands in `[1, 10]` (note: `int()` truncates floats, so `10.5`
converts to `10` and passes). -/
def validate_decision (d : DecisionData) : Bool :=
  d.decision.isSome && d.reasoning.isSome && d.confidence.isSome &&
  (match d.decision with
   | some s => ["1", "2", "3", "4"].contains s
   | none => false) &&
  (match d.confidence with
   | some v =>
     match pyIntOf v with
     | some c => 1 ≤ c && c ≤ 10
     | none => false
   | none => false)

/-- `_fallback_decision`: the safety payload, `decision = "1"` (WAIT). -/
def fallback_decision (reason : String) : DecisionData :=
  { decision := some "1",
    reasoning := some ("FALLBACK: " ++ reason ++ " - Defaulting to WAIT for safety"),
    confidence := some (ConfValue.int 1) }

/-- The tail of `analyze_market`: an unparsable response (`none`) or a
payload failing `_validate_decision` is replaced by the fallback. -/
def process_decision : Option DecisionData → DecisionData
  | none => fallback_decision "Invalid JSON response from Claude"
  | some d =>
    if validate_decision d then d
    else fallback_decision "Invalid decision format from Claude"

/-- `daily_trading_session` step 4 reads the command with
`claude_decision.get("decision", "1")`. -/
def session_decision (parsed : Option DecisionData) : String :=
  (process_decision parsed).decision.getD "1"

/-! ## Trade monitoring (`_start_trade_monitoring` / `monitor_active_trade`,
`trading_system_calude_ai.py`) -/

def terminalStatuses : List String := ["TP_HIT", "SL_HIT", "CLOSED", "MANUAL_CLOSE"]

/-- One `monitor_active_trade` call: on a terminal status the post-trade
lesson is generated, `current_trade` is cleared and `True` is returned;
otherwise (`*_ACTIVE` or any sentinel/unknown status) `current_trade` is
untouched and `False` is returned. -/
def monitor_active_trade (current_trade : Option String) (status : StatusData) :
    Option String × Bool :=
  if terminalStatuses.contains status.status then (none, true)
  else (current_trade, false)

/-- The `monitor_trade` loop: each iteration first checks the `while` guard
(`current_trade and not shutdown_requested`), then polls once. The trace
lists, per iteration, the externally set shutdown flag and the freshly read
status; the loop's result is the final `current_trade`. -/
def monitorLoop : Option String → List (Bool × StatusData) → Option String
  | ct, [] => ct
  | ct, (shutdown, status) :: rest =>
    if ct.isSome && !shutdown then
      let r := monitor_active_trade ct status
      if r.2 then r.1 else monitorLoop r.1 rest
    else ct

/-! ## Concrete objects used by the claim checks -/

/-- An ASCII whitespace byte (the byte values an ASCII-writing terminal can
put in a file whose content is empty or whitespace-only; all satisfy
Python's `str.isspace`). -/
def wsByte (b : Nat) : Bool := b ∈ [9, 10, 11, 12, 13, 28, 29, 30, 31, 32]

/-- Modelled from the claim's words (claim C3), for comparison with
`get_recent_lessons`: the same filter, the same date-descending sort, but
ties broken by insertion order most-recent-insertion-first — that is, the
stable descending sort of the reversed filtered sequence — truncated to
`limit`. -/
def claimRecentLessons (lessons : List Lesson) (limit : Nat) (min_relevance : Int)
    (lesson_type : Option String) (tags : Option (List String)) : List Lesson :=
  (List.insertionSort dateGe
    ((lessons.filter (lessonPasses min_relevance lesson_type tags)).reverse)).take limit

/-- Two distinct lessons sharing one date (tie-break probe). -/
def twinA : Lesson :=
  { id := "A1", date := "2025-01-01", pair := "EURUSD", type := "T",
    context := "first inserted", rule := "r", result := "w", relevance := 5, tags := [] }

def twinB : Lesson :=
  { id := "B1", date := "2025-01-01", pair := "EURUSD", type := "T",
    context := "second inserted", rule := "r", result := "w", relevance := 5, tags := [] }

/-- A valid `add_lesson` input dated 2025-06-15. -/
def c4Input : LessonInput :=
  { pair := "EURUSD", type := "Post-Trade", context := "ctx", rule := "rule",
    result := "+5 pips", relevance := 4, tags := [],
    date := "2025-06-15", created_timestamp := "2025-06-15T10:00:00" }

/-- A prior store holding one high-relevance lesson dated the same day as
`c4Input`. -/
def c4PriorLesson : Lesson :=
  { id := "X77", date := "2025-06-15", pair := "EURUSD", type := "T",
    context := "c", rule := "r", result := "w", relevance := 5, tags := [] }

def c4Prior : MemoryData := ⟨[c4PriorLesson], 77⟩

/-! # Theorems

First the general-purpose lemmas about the helper functions, then one
theorem per claim (with its witness or counterexample where required). -/

/-! ## Decimal-digit lemmas -/

theorem digitsVal_digitsRevFuel : ∀ (fuel n : Nat), n ≤ fuel →
    digitsVal (digitsRevFuel fuel n) = n := by
  intro fuel
  induction fuel with
  | zero => intro n hn; interval_cases n; rfl
  | succ f ih =>
    intro n hn
    by_cases h0 : n = 0
    · subst h0; simp [digitsRevFuel, digitsVal]
    · have hdiv : n / 10 ≤ f := by
        have h1 : n / 10 < n := Nat.div_lt_self (Nat.pos_of_ne_zero h0) (by omega)
        omega
      simp only [digitsRevFuel, h0, if_false, digitsVal, ih (n / 10) hdiv]
      omega

theorem digitsRevFuel_lt_ten : ∀ (fuel n : Nat), ∀ d ∈ digitsRevFuel fuel n, d < 10 := by
  intro fuel
  induction fuel with
  | zero => intro n d hd; simp [digitsRevFuel] at hd
  | succ f ih =>
    intro n d hd
    by_cases h0 : n = 0
    · subst h0; simp [digitsRevFuel] at hd
    · simp only [digitsRevFuel, h0, if_false, List.mem_cons] at hd
      rcases hd with h | h
      · subst h; exact Nat.mod_lt _ (by omega)
      · exact ih _ _ h

theorem charVal_digitChar {d : Nat} (hd : d < 10) : charVal (digitChar d) = d := by
  interval_cases d <;> rfl

theorem charsVal_aux (l : List Char) : ∀ a : Nat,
    l.foldl (fun a c => 10 * a + charVal c) a =
      a * 10 ^ l.length + l.foldl (fun a c => 10 * a + charVal c) 0 := by
  induction l with
  | nil => intro a; simp
  | cons c t ih =>
    intro a
    simp only [List.foldl_cons, List.length_cons]
    rw [ih (10 * a + charVal c), ih (10 * 0 + charVal c)]
    ring

theorem charsVal_append (l₁ l₂ : List Char) :
    charsVal (l₁ ++ l₂) = charsVal l₁ * 10 ^ l₂.length + charsVal l₂ := by
  simp only [charsVal, List.foldl_append]
  rw [charsVal_aux l₂ (List.foldl (fun a c => 10 * a + charVal c) 0 l₁)]

theorem charsVal_replicate_zero (k : Nat) : charsVal (List.replicate k '0') = 0 := by
  induction k with
  | zero => rfl
  | succ n ih =>
    have : List.replicate (n + 1) '0' = List.replicate n '0' ++ ['0'] :=
      List.replicate_succ' n '0'
    rw [this, charsVal_append, ih]
    rfl

theorem charsVal_rev_digits (ds : List Nat) (hds : ∀ d ∈ ds, d < 10) :
    charsVal ((ds.reverse).map digitChar) = digitsVal ds := by
  induction ds with
  | nil => rfl
  | cons d t ih =>
    simp only [List.reverse_cons, List.map_append, List.map_cons, List.map_nil]
    rw [charsVal_append]
    have h1 : charsVal [digitChar d] = d := by
      simp [charsVal, charVal_digitChar (hds d (by simp))]
    rw [h1, ih (fun x hx => hds x (by simp [hx]))]
    simp only [digitsVal, List.length_cons, List.length_nil, pow_one]
    omega

/-- `pad3` composed with digit reading is the identity: `pad3` is injective. -/
theorem charsVal_pad3 (n : Nat) : charsVal (pad3 n).data = n := by
  by_cases h0 : n = 0
  · subst h0; rfl
  · simp only [pad3, h0, if_false]
    rw [charsVal_append, charsVal_replicate_zero,
      charsVal_rev_digits _ (digitsRevFuel_lt_ten n n),
      digitsVal_digitsRevFuel n n (Nat.le_refl n)]
    simp

theorem pad3_injective : Function.Injective pad3 := by
  intro a b hab
  have := charsVal_pad3 a
  rw [hab, charsVal_pad3 b] at this
  omega

/-! ## String-order lemmas: `pyStrLt` is `String.lt` -/

theorem pyStrLtList_iff : ∀ as bs : List Char, pyStrLtList as bs = true ↔ as < bs := by
  intro as
  induction as with
  | nil =>
    intro bs
    cases bs with
    | nil =>
      simp only [pyStrLtList, Bool.false_eq_true, false_iff]
      intro h; cases h
    | cons b t =>
      simp only [pyStrLtList, true_iff]
      exact List.Lex.nil
  | cons a as ih =>
    intro bs
    cases bs with
    | nil =>
      simp only [pyStrLtList, Bool.false_eq_true, false_iff]
      intro h; cases h
    | cons b t =>
      simp only [pyStrLtList]
      by_cases hab : a < b
      · simp only [hab, if_true, true_iff]
        exact List.Lex.rel hab
      · simp only [hab, if_false]
        by_cases hba : b < a
        · simp only [hba, if_true, Bool.false_eq_true, false_iff]
          intro h
          cases h with
          | cons h => exact lt_irrefl a hba
          | rel h => exact hab h
        · simp only [hba, if_false, ih]
          have hEq : a = b := le_antisymm (not_lt.mp hba) (not_lt.mp hab)
          subst hEq
          constructor
          · intro h; exact List.Lex.cons h
          · intro h
            cases h with
            | cons h => exact h
            | rel h => exact absurd h hab

theorem pyStrLt_iff (s t : String) : pyStrLt s t = true ↔ s < t := by
  rw [pyStrLt, pyStrLtList_iff, String.lt_iff_toList_lt]
  rfl

theorem pyStrLt_eq_false_iff (s t : String) : pyStrLt s t = false ↔ ¬ s < t := by
  rw [← pyStrLt_iff]
  simp

theorem dateGe_iff (a b : Lesson) : dateGe a b ↔ ¬ a.date < b.date :=
  pyStrLt_eq_false_iff a.date b.date

instance : IsTotal Lesson dateGe :=
  ⟨fun a b => by
    rw [dateGe_iff, dateGe_iff]
    rcases le_total a.date b.date with h | h
    · exact Or.inr (not_lt.mpr h)
    · exact Or.inl (not_lt.mpr h)⟩

instance : IsTrans Lesson dateGe :=
  ⟨fun a b c hab hbc => by
    rw [dateGe_iff] at *
    exact not_lt.mpr (le_trans (not_lt.mp hbc) (not_lt.mp hab))⟩

/-! ## Stability of the date sort -/

theorem filter_date_orderedInsert (d : String) (a : Lesson) (l : List Lesson) :
    (List.orderedInsert dateGe a l).filter (fun x => x.date == d) =
      if a.date == d then a :: l.filter (fun x => x.date == d)
      else l.filter (fun x => x.date == d) := by
  induction l with
  | nil =>
    simp only [List.orderedInsert, List.filter]
    by_cases hpa : a.date == d <;> simp [hpa]
  | cons b t ih =>
    by_cases hab : dateGe a b
    · rw [List.orderedInsert_of_le _ _ hab]
      by_cases hpa : (a.date == d) = true <;>
        by_cases hpb : (b.date == d) = true <;>
        simp [List.filter_cons, hpa, hpb]
    · have hlt : a.date < b.date := by
        have := (dateGe_iff a b).not.mp hab
        exact not_not.mp this
      simp only [List.orderedInsert, hab, if_false]
      by_cases hpb : (b.date == d) = true
      · have hbd : b.date = d := by simpa using hpb
        have had : (a.date == d) = false := by
          simp only [beq_eq_false_iff_ne, ne_eq]
          rw [← hbd]
          exact ne_of_lt hlt
        simp only [List.filter_cons, hpb, if_true, ih, had, Bool.false_eq_true,
          if_false]
      · have hpb' : (b.date == d) = false := by simpa using hpb
        simp only [List.filter_cons, hpb', Bool.false_eq_true, if_false, ih]

theorem filter_date_insertionSort (d : String) (l : List Lesson) :
    (List.insertionSort dateGe l).filter (fun x => x.date == d) =
      l.filter (fun x => x.date == d) := by
  induction l with
  | nil => rfl
  | cons a t ih =>
    rw [List.insertionSort, filter_date_orderedInsert]
    by_cases hpa : (a.date == d) = true <;> simp [List.filter_cons, hpa, ih]

/-! ## Inserting a strictly newer lesson -/

theorem orderedInsert_cons_of_newer {a x : Lesson} (h : pyStrLt a.date x.date = true)
    (s : List Lesson) :
    List.orderedInsert dateGe a (x :: s) = x :: List.orderedInsert dateGe a s := by
  have : ¬ dateGe a x := by
    unfold dateGe
    simp [h]
  simp [List.orderedInsert, this]

theorem insertionSort_append_newest (x : Lesson) :
    ∀ l : List Lesson, (∀ y ∈ l, pyStrLt y.date x.date = true) →
      List.insertionSort dateGe (l ++ [x]) = x :: List.insertionSort dateGe l := by
  intro l
  induction l with
  | nil => intro _; rfl
  | cons y t ih =>
    intro h
    have hy : pyStrLt y.date x.date = true := h y (by simp)
    rw [List.cons_append, List.insertionSort, ih (fun z hz => h z (by simp [hz])),
      orderedInsert_cons_of_newer hy, List.insertionSort]

/-! ## The decode loop never accepts empty content -/

theorem tryDecodings_ne_empty :
    ∀ (ds : List (List Nat → Option (List Char))) (bs : List Nat) (c : String),
      tryDecodings ds bs = some c → c ≠ "" := by
  intro ds
  induction ds with
  | nil => intro bs c h; simp [tryDecodings] at h
  | cons d ds ih =>
    intro bs c h
    simp only [tryDecodings] at h
    cases hd : d bs with
    | none =>
      simp only [hd] at h
      exact ih bs c h
    | some cs =>
      simp only [hd] at h
      by_cases hcond :
          (!(pyStripList cs).isEmpty &&
            (pyStripList cs).all (fun c => c.toNat < 128)) = true
      · rw [if_pos hcond] at h
        have hc : c = String.mk (pyStripList cs) := (Option.some.inj h).symm
        have hne : pyStripList cs ≠ [] := by
          intro hnil
          rw [hnil] at hcond
          simp at hcond
        intro hemp
        apply hne
        have : (String.mk (pyStripList cs)).data = ("" : String).data := by
          rw [← hc, hemp]
        simpa using this
      · rw [if_neg hcond] at h
        exact ih bs c h

theorem decodeLoop_ne_empty (bs : List Nat) (c : String)
    (h : decodeLoop bs = some c) : c ≠ "" :=
  tryDecodings_ne_empty _ bs c h

/-! ## Claim C1 -/

/-- C1: for the status line `TP_HIT|1001|1.0950|1.0900|1.1000|2025-01-01|done`
read through `read_mt5_status`, the `direction` field comes out `none` (both
readers derive a direction only from the status text, and `TP_HIT`/`SL_HIT`
contain neither `LONG` nor `SHORT`), so `_calculate_pips_result` takes its
non-LONG branch: the lesson records `+-50.0 pips` for the TP line and
`50.0 pips` for the SL line — not the `+50.0 pips` / `-50.0 pips` the claim
states. The last two conjuncts show the claimed values are exactly what the
LONG branch would produce had the decoded record carried
`direction = "LONG"`, which is what the claim and spec intend. -/
theorem c1_recorded_pips_for_long_terminal_lines :
    (read_mt5_status
        (some (strBytes "TP_HIT|1001|1.0950|1.0900|1.1000|2025-01-01|done"))).direction
      = none
    ∧ (read_mt5_status_ai
        (some (strBytes "TP_HIT|1001|1.0950|1.0900|1.1000|2025-01-01|done"))).direction
      = none
    ∧ calculate_pips_result
        (read_mt5_status
          (some (strBytes "TP_HIT|1001|1.0950|1.0900|1.1000|2025-01-01|done")))
      = "+-50.0 pips"
    ∧ calculate_pips_result
        (read_mt5_status
          (some (strBytes "SL_HIT|1001|1.0950|1.0900|1.1000|2025-01-01|done")))
      = "50.0 pips"
    ∧ calculate_pips_result
        { read_mt5_status
            (some (strBytes "TP_HIT|1001|1.0950|1.0900|1.1000|2025-01-01|done")) with
          direction := some "LONG" }
      = "+50.0 pips"
    ∧ calculate_pips_result
        { read_mt5_status
            (some (strBytes "SL_HIT|1001|1.0950|1.0900|1.1000|2025-01-01|done")) with
          direction := some "LONG" }
      = "-50.0 pips" := by
  decide

/-! ## Claim C6 -/

/-- C6: for every command, `send_command_to_mt5` overwrites the command
file's entire contents with exactly the command's one-character ASCII code
(in particular `"2"` for LONG, regardless of the previous contents), and an
I/O failure makes it report `false` instead of raising. -/
theorem c6_send_command_overwrites_single_character (cmd : Command) (prev : String) :
    send_command_to_mt5 prev (commandCode cmd) false = (commandCode cmd, true)
    ∧ (commandCode cmd).length = 1
    ∧ (commandCode cmd).data.all (fun c => c.toNat < 128) = true
    ∧ commandCode Command.long = "2"
    ∧ (send_command_to_mt5 prev (commandCode cmd) true).2 = false := by
  cases cmd <;> exact ⟨rfl, rfl, rfl, rfl, rfl⟩

/-! ## Claim C2 -/

/-- C2 counterexample: with a primary store file that parses to a JSON list
(structurally invalid: wrong top-level shape) and a perfectly good backup
present, `load_memory` returns the empty store rather than attempting the
backup restoration the claim promises (which would have returned the
backup's content). -/
theorem c2_counterexample :
    load_memory (some JsonContent.nonDict) [(1, seedJson)] false = emptyJson
    ∧ restore_from_backup [(1, seedJson)] false = seedJson
    ∧ emptyJson ≠ seedJson := by
  refine ⟨rfl, rfl, ?_⟩
  decide

/-- C2 amended: only a primary that fails to parse as JSON triggers backup
restoration; a primary that parses but is not a dictionary is caught by the
generic handler, which returns the empty-but-valid store without consulting
any backup; restoration with no backup available also yields the empty
store. No path raises (the model is total, mirroring the catch-all
handlers). -/
theorem c2_amended_load_fallbacks (backups : List (Nat × JsonContent)) (saveFail : Bool) :
    load_memory (some JsonContent.malformed) backups saveFail
      = restore_from_backup backups saveFail
    ∧ load_memory (some JsonContent.nonDict) backups saveFail = emptyJson
    ∧ restore_from_backup [] saveFail = emptyJson
    ∧ load_memory (some JsonContent.malformed) [] saveFail = emptyJson :=
  ⟨rfl, rfl, rfl, rfl⟩

/-! ## Claim C5 -/

/-- C5 counterexample: the payload `decision = "3"`, `reasoning = "r"`,
`confidence = 10.5` has a confidence outside `[1,10]` (fourth conjunct:
`10 < 10.5`), yet Python's `int()` truncates it to `10` (fifth conjunct),
so `_validate_decision` accepts the payload, `analyze_market` forwards it
unchanged, and the session's resulting decision is the directional SHORT
command `"3"` — not WAIT, refuting the claim as stated. -/
theorem c5_counterexample :
    validate_decision ⟨some "3", some "r", some (ConfValue.float ⟨105, 10⟩)⟩ = true
    ∧ process_decision (some ⟨some "3", some "r", some (ConfValue.float ⟨105, 10⟩)⟩)
        = ⟨some "3", some "r", some (ConfValue.float ⟨105, 10⟩)⟩
    ∧ session_decision (some ⟨some "3", some "r", some (ConfValue.float ⟨105, 10⟩)⟩)
        = "3"
    ∧ (10 : Int) * ((⟨105, 10⟩ : Dec).den : Int) < (⟨105, 10⟩ : Dec).num
    ∧ pyIntOf (ConfValue.float ⟨105, 10⟩) = some 10 := by
  decide

/-- C5 amended: the fallback to WAIT holds for every payload that is
missing a required field, carries a decision outside `{"1","2","3","4"}`,
or carries a confidence that `int()` cannot convert or whose `int()` image
lies outside `[1,10]`. (It does not hold for every confidence outside
`[1,10]`: a float in `(10,11)` or `(0,1)` truncates into range and is
forwarded unchanged — see the counterexample.) -/
theorem c5_invalid_decision_falls_back_to_wait (d : DecisionData)
    (h : d.decision = none ∨ d.reasoning = none ∨ d.confidence = none
      ∨ (∃ s, d.decision = some s ∧ s ∉ (["1", "2", "3", "4"] : List String))
      ∨ (∃ v, d.confidence = some v ∧ pyIntOf v = none)
      ∨ (∃ v n, d.confidence = some v ∧ pyIntOf v = some n ∧ (n < 1 ∨ 10 < n))) :
    validate_decision d = false
    ∧ (process_decision (some d)).decision = some "1"
    ∧ session_decision (some d) = "1"
    ∧ session_decision (some d) ≠ "2"
    ∧ session_decision (some d) ≠ "3" := by
  have hval : validate_decision d = false := by
    rcases h with h1 | h1 | h1 | ⟨s, hs, hmem⟩ | ⟨v, hc, hpy⟩ | ⟨v, n, hc, hpy, hn⟩
    · simp [validate_decision, h1]
    · simp [validate_decision, h1]
    · simp [validate_decision, h1]
    · have hcont : (["1", "2", "3", "4"] : List String).contains s = false := by
        simpa using hmem
      simp only [validate_decision, hs, hcont, Bool.and_false, Bool.false_and]
    · simp only [validate_decision, hc, hpy, Bool.and_false]
    · have h1 : (decide (1 ≤ n) && decide (n ≤ 10)) = false := by
        rcases hn with hn | hn
        · simp [show ¬ (1 ≤ n) from by omega]
        · simp [show ¬ (n ≤ 10) from by omega]
      simp only [validate_decision, hc, hpy, h1, Bool.and_false]
  refine ⟨hval, ?_, ?_, ?_, ?_⟩ <;>
    simp [process_decision, session_decision, hval, fallback_decision]

/-- C5 witness: the payload with integer confidence `11` is rejected and
collapses to WAIT. -/
theorem c5_witness :
    validate_decision ⟨some "2", some "ok", some (ConfValue.int 11)⟩ = false
    ∧ (process_decision (some ⟨some "2", some "ok", some (ConfValue.int 11)⟩)).decision
        = some "1"
    ∧ session_decision (some ⟨some "2", some "ok", some (ConfValue.int 11)⟩) = "1"
    ∧ session_decision (some ⟨some "2", some "ok", some (ConfValue.int 11)⟩) ≠ "2"
    ∧ session_decision (some ⟨some "2", some "ok", some (ConfValue.int 11)⟩) ≠ "3" :=
  c5_invalid_decision_falls_back_to_wait ⟨some "2", some "ok", some (ConfValue.int 11)⟩
    (Or.inr (Or.inr (Or.inr (Or.inr (Or.inr
      ⟨ConfValue.int 11, 11, rfl, rfl, Or.inr (by omega)⟩)))))

/-! ## Claim C7 -/

/-- C7: `read_mt5_status` (both versions) returns the `FILE_NOT_FOUND`
sentinel for an absent file, the `UNREADABLE` sentinel when no decoding is
accepted, and the `PARSE_ERROR` sentinel whenever the accepted content
splits into fewer than six `|`-delimited fields — in every case a value is
returned, never an exception. -/
theorem c7_short_status_yields_parse_error_sentinel (bs : List Nat) (content : String)
    (hdec : decodeLoop bs = some content)
    (hlen : (splitOnPipe content.data).length < 6) :
    (read_mt5_status (some bs)).status = "PARSE_ERROR"
    ∧ (read_mt5_status_ai (some bs)).status = "PARSE_ERROR"
    ∧ (read_mt5_status none).status = "FILE_NOT_FOUND"
    ∧ (read_mt5_status_ai none).status = "FILE_NOT_FOUND"
    ∧ (∀ cs, decodeLoop cs = none → (read_mt5_status (some cs)).status = "UNREADABLE"
        ∧ (read_mt5_status_ai (some cs)).status = "UNREADABLE") := by
  have hne := decodeLoop_ne_empty bs content hdec
  refine ⟨?_, ?_, rfl, rfl, ?_⟩
  · simp only [read_mt5_status, hdec, if_neg hne]
    generalize hsp : splitOnPipe content.data = l at hlen ⊢
    rcases l with _ | ⟨p0, _ | ⟨p1, _ | ⟨p2, _ | ⟨p3, _ | ⟨p4, _ | ⟨p5, rest⟩⟩⟩⟩⟩⟩ <;>
      first
        | rfl
        | (simp only [List.length_cons] at hlen; omega)
  · simp only [read_mt5_status_ai, hdec]
    generalize hsp : splitOnPipe content.data = l at hlen ⊢
    rcases l with _ | ⟨p0, _ | ⟨p1, _ | ⟨p2, _ | ⟨p3, _ | ⟨p4, _ | ⟨p5, rest⟩⟩⟩⟩⟩⟩ <;>
      first
        | rfl
        | (simp only [List.length_cons] at hlen; omega)
  · intro cs hcs
    simp only [read_mt5_status, read_mt5_status_ai, hcs]
    exact ⟨rfl, rfl⟩

/-- C7 witness: the five-character, one-field content `HELLO`. -/
theorem c7_witness :
    (read_mt5_status (some (strBytes "HELLO"))).status = "PARSE_ERROR"
    ∧ (read_mt5_status_ai (some (strBytes "HELLO"))).status = "PARSE_ERROR" :=
  ⟨(c7_short_status_yields_parse_error_sentinel (strBytes "HELLO") "HELLO"
      (by decide) (by decide)).1,
   (c7_short_status_yields_parse_error_sentinel (strBytes "HELLO") "HELLO"
      (by decide) (by decide)).2.1⟩

/-! ## Claim C10 -/

theorem utf8DecodeGo_ascii :
    ∀ (fuel : Nat) (bs : List Nat), bs.length ≤ fuel → (∀ b ∈ bs, b < 0x80) →
      utf8DecodeGo fuel bs = some (bs.map Char.ofNat) := by
  intro fuel
  induction fuel with
  | zero =>
    intro bs h _
    cases bs with
    | nil => rfl
    | cons b t => simp at h
  | succ f ih =>
    intro bs h hascii
    cases bs with
    | nil => rfl
    | cons b t =>
      have hb : b < 0x80 := hascii b (by simp)
      have hstep : utf8Step b t = some (b, t) := by
        unfold utf8Step
        rw [if_pos hb]
      have hlen : t.length ≤ f := by
        simp only [List.length_cons] at h
        omega
      simp only [utf8DecodeGo, hstep,
        ih t hlen (fun x hx => hascii x (by simp [hx]))]
      rfl

theorem utf8Decode_ascii (bs : List Nat) (h : ∀ b ∈ bs, b < 0x80) :
    utf8Decode bs = some (bs.map Char.ofNat) :=
  utf8DecodeGo_ascii bs.length bs (Nat.le_refl _) h

theorem decodeCp1252_ascii :
    ∀ bs : List Nat, (∀ b ∈ bs, b < 0x80) →
      decodeCp1252 bs = some (bs.map Char.ofNat) := by
  intro bs
  induction bs with
  | nil => intro _; rfl
  | cons b t ih =>
    intro h
    have hb : b < 0x80 := h b (by simp)
    have hcp : cp1252Byte b = some b := by
      simp [cp1252Byte, hb]
    rw [decodeCp1252, hcp, ih (fun x hx => h x (by simp [hx]))]
    rfl

theorem decodeAscii_of_ascii (bs : List Nat) (h : ∀ b ∈ bs, b < 0x80) :
    decodeAscii bs = some (bs.map Char.ofNat) := by
  rw [decodeAscii, if_pos]
  simpa [List.all_eq_true] using h

theorem wsByte_lt (b : Nat) (h : wsByte b = true) : b < 0x80 := by
  simp only [wsByte, List.mem_cons, decide_eq_true_eq, List.not_mem_nil, or_false] at h
  omega

theorem wsByte_isPySpace (b : Nat) (h : wsByte b = true) :
    isPySpace (Char.ofNat b) = true := by
  simp only [wsByte, List.mem_cons, decide_eq_true_eq, List.not_mem_nil, or_false] at h
  rcases h with h | h | h | h | h | h | h | h | h | h <;> subst h <;> decide

theorem pyStripList_all_space (cs : List Char) (h : ∀ c ∈ cs, isPySpace c = true) :
    pyStripList cs = [] := by
  have hdrop : cs.dropWhile isPySpace = [] := by
    rw [List.dropWhile_eq_nil_iff]
    intro c hc
    exact h c hc
  simp [pyStripList, hdrop]

/-- An attempt whose decoded content strips to empty is rejected and the
loop moves on. -/
theorem tryDecodings_cons_rejected (d : List Nat → Option (List Char))
    (ds : List (List Nat → Option (List Char))) (bs : List Nat) (cs : List Char)
    (hd : d bs = some cs) (hstrip : pyStripList cs = []) :
    tryDecodings (d :: ds) bs = tryDecodings ds bs := by
  simp [tryDecodings, hd, hstrip]

/-- On a whitespace-only byte list every decoding attempt yields content
that strips to empty, so the loop exhausts all four encodings. -/
theorem decodeLoop_whitespace (bs : List Nat) (h : ∀ b ∈ bs, wsByte b = true) :
    decodeLoop bs = none := by
  have hlt : ∀ b ∈ bs, b < 0x80 := fun b hb => wsByte_lt b (h b hb)
  have hstrip : pyStripList (bs.map Char.ofNat) = [] := by
    apply pyStripList_all_space
    intro c hc
    rw [List.mem_map] at hc
    obtain ⟨b, hb, rfl⟩ := hc
    exact wsByte_isPySpace b (h b hb)
  have h1 := decodeAscii_of_ascii bs hlt
  have h2 := utf8Decode_ascii bs hlt
  have h3 : decodeLatin1 bs = some (bs.map Char.ofNat) := rfl
  have h4 := decodeCp1252_ascii bs hlt
  rw [decodeLoop, tryDecodings_cons_rejected _ _ _ _ h1 hstrip,
    tryDecodings_cons_rejected _ _ _ _ h2 hstrip,
    tryDecodings_cons_rejected _ _ _ _ h3 hstrip,
    tryDecodings_cons_rejected _ _ _ _ h4 hstrip]
  rfl

/-- C10: a status file whose bytes are empty or all ASCII whitespace is
rejected by every decoding attempt (the stripped content is empty), so both
readers return the `UNREADABLE` sentinel; and no input whatsoever makes
`read_mt5_status` return the `EMPTY` sentinel its dead branch would build —
that branch is unreachable because the decode loop only accepts nonempty
content. -/
theorem c10_whitespace_unreadable_and_empty_unreachable (bs : List Nat)
    (h : ∀ b ∈ bs, wsByte b = true) :
    (read_mt5_status (some bs)).status = "UNREADABLE"
    ∧ (read_mt5_status_ai (some bs)).status = "UNREADABLE"
    ∧ ∀ file, read_mt5_status file
        ≠ mkSentinel "EMPTY" "Status file is empty or unreadable" := by
  have hdec := decodeLoop_whitespace bs h
  refine ⟨by simp [read_mt5_status, hdec, mkSentinel],
    by simp [read_mt5_status_ai, hdec, mkSentinel], ?_⟩
  intro file
  match file with
  | none => decide
  | some cs =>
    cases hl : decodeLoop cs with
    | none =>
      simp only [read_mt5_status, hl]
      decide
    | some content =>
      have hne := decodeLoop_ne_empty cs content hl
      simp only [read_mt5_status, hl, if_neg hne]
      rcases hsp : splitOnPipe content.data with _ | ⟨p0, _ | ⟨p1, _ | ⟨p2, _ | ⟨p3,
          _ | ⟨p4, _ | ⟨p5, rest⟩⟩⟩⟩⟩⟩ <;>
        intro heq
      case cons.cons.cons.cons.cons.cons =>
        have hr := congrArg StatusData.raw_data heq
        simp [mkSentinel] at hr
      all_goals
        have hs2 := congrArg StatusData.status heq
        simp only [mkSentinel] at hs2
        exact absurd hs2 (by decide)
  
/-- C10 witness: a file holding a space, a newline and a tab. -/
theorem c10_witness :
    (read_mt5_status (some [32, 10, 9])).status = "UNREADABLE"
    ∧ (read_mt5_status_ai (some [32, 10, 9])).status = "UNREADABLE" :=
  ⟨(c10_whitespace_unreadable_and_empty_unreachable [32, 10, 9] (by decide)).1,
   (c10_whitespace_unreadable_and_empty_unreachable [32, 10, 9] (by decide)).2.1⟩

/-! ## Claim C9 -/

/-- C9: the monitoring loop clears `current_trade` only when a polled status
is terminal: a run whose polled statuses are all non-terminal — in
particular one cut short by a shutdown request — ends with `current_trade`
exactly as it started; and whenever the loop ends with `current_trade`
cleared, some polled status was terminal (cancellation alone never clears
it). -/
theorem c9_cancellation_preserves_current_trade (ct : Option String)
    (trace : List (Bool × StatusData)) :
    ((∀ p ∈ trace, terminalStatuses.contains p.2.status = false) →
      monitorLoop ct trace = ct)
    ∧ (monitorLoop ct trace = none →
      ct = none ∨ ∃ p ∈ trace, terminalStatuses.contains p.2.status = true) := by
  induction trace generalizing ct with
  | nil => exact ⟨fun _ => rfl, fun h => Or.inl h⟩
  | cons p rest ih =>
    obtain ⟨sd, st⟩ := p
    constructor
    · intro h
      have hst : terminalStatuses.contains st.status = false := h (sd, st) (by simp)
      simp only [monitorLoop, monitor_active_trade, hst]
      by_cases hg : (ct.isSome && !sd) = true
      · rw [if_pos hg, if_neg (by simp)]
        exact (ih ct).1 (fun q hq => h q (by simp [hq]))
      · rw [if_neg hg]
    · intro h
      simp only [monitorLoop, monitor_active_trade] at h
      by_cases hg : (ct.isSome && !sd) = true
      · rw [if_pos hg] at h
        by_cases hst : terminalStatuses.contains st.status = true
        · exact Or.inr ⟨(sd, st), by simp, hst⟩
        · simp only [hst, Bool.false_eq_true, if_false] at h
          rcases (ih ct).2 h with hc | ⟨q, hq, hqt⟩
          · exact Or.inl hc
          · exact Or.inr ⟨q, by simp [hq], hqt⟩
      · rw [if_neg hg] at h
        exact Or.inl h

/-- C9 witness: a shutdown requested on the first poll of a LONG trade with
a non-terminal status leaves `current_trade` set. -/
theorem c9_witness :
    monitorLoop (some "LONG") [(true, mkSentinel "WAITING" "")] = some "LONG" :=
  (c9_cancellation_preserves_current_trade (some "LONG")
    [(true, mkSentinel "WAITING" "")]).1 (by decide)

/-! ## Claim C3 -/

/-- C3 counterexample: two distinct lessons sharing one date come back in
insertion order (the stable sort keeps the earlier-inserted one first), not
most-recent-insertion-first as the claim states: `get_recent_lessons`
returns `[twinA, twinB]` where the claim's reading demands
`[twinB, twinA]`. -/
theorem c3_counterexample :
    get_recent_lessons [twinA, twinB] 10 1 none none = [twinA, twinB]
    ∧ claimRecentLessons [twinA, twinB] 10 1 none none = [twinB, twinA]
    ∧ twinA ≠ twinB := by
  decide

/-- C3 amended: `get_recent_lessons` returns the first `limit` elements of a
list that is a permutation of exactly the lessons passing the
relevance/type/tags filters, ordered by date descending, with equal-date
lessons kept in their original insertion order (earliest insertion first —
Python's stable sort preserves the stored order on ties). -/
theorem c3_amended_retrieval_characterization (lessons : List Lesson) (limit : Nat)
    (min_relevance : Int) (lesson_type : Option String) (tags : Option (List String)) :
    ∃ sorted : List Lesson,
      get_recent_lessons lessons limit min_relevance lesson_type tags = sorted.take limit
      ∧ sorted.Perm (lessons.filter (lessonPasses min_relevance lesson_type tags))
      ∧ sorted.Pairwise (fun a b => ¬ a.date < b.date)
      ∧ ∀ d, sorted.filter (fun x => x.date == d)
          = (lessons.filter (lessonPasses min_relevance lesson_type tags)).filter
              (fun x => x.date == d) := by
  refine ⟨List.insertionSort dateGe
      (lessons.filter (lessonPasses min_relevance lesson_type tags)), rfl,
    List.perm_insertionSort _ _, ?_, fun d => filter_date_insertionSort d _⟩
  have hs := List.sorted_insertionSort dateGe
    (lessons.filter (lessonPasses min_relevance lesson_type tags))
  exact List.Pairwise.imp (fun hab => (dateGe_iff _ _).mp hab) hs

/-! ## Claim C4 -/

/-- A valid input makes `add_lesson` succeed with the appended lesson and
the bumped counter. -/
theorem add_lesson_ok (mem : MemoryData) (inp : LessonInput) (hv : validInput inp) :
    add_lesson mem inp = Except.ok
      (⟨mem.lessons ++ [newLessonOf mem inp], mem.last_lesson_id + 1⟩,
        "L" ++ pad3 (mem.last_lesson_id + 1)) := by
  obtain ⟨h1, h2, h3, h4, h5, h6, h7⟩ := hv
  have hA : ¬ (inp.pair = "" ∨ inp.type = "" ∨ inp.context = "" ∨ inp.rule = "" ∨
      inp.result = "") := by
    push_neg
    exact ⟨h1, h2, h3, h4, h5⟩
  have hB : ¬ ¬ (1 ≤ inp.relevance ∧ inp.relevance ≤ 5) := not_not_intro ⟨h6, h7⟩
  rw [add_lesson, if_neg hA, if_neg hB]

/-- The freshly added lesson passes its own retrieval filter. -/
theorem newLesson_passes (mem : MemoryData) (inp : LessonInput) :
    lessonPasses inp.relevance none none (newLessonOf mem inp) = true := by
  simp [lessonPasses, newLessonOf]

/-- C4 counterexample: against a prior store holding a same-day lesson that
passes the relevance filter, `addLesson` followed by
`getRecentLessons(limit=1, minRelevance=relevance)` returns the *old*
lesson (`X77`), not the one whose id (`L078`) `addLesson` just returned:
the stable sort keeps the equal-date prior lesson first. -/
theorem c4_counterexample :
    (add_lesson c4Prior c4Input).toOption.map (fun p => p.2) = some "L078"
    ∧ (add_lesson c4Prior c4Input).toOption.map
        (fun p => (get_recent_lessons p.1.lessons 1 4 none none).map (fun l => l.id))
      = some ["X77"]
    ∧ ("X77" : String) ≠ "L078" := by
  decide

/-- C4 amended: the round-trip holds for every valid input against every
prior store all of whose lessons are dated strictly before the new lesson's
date (the counterexample shows a same-day prior lesson breaks it):
`add_lesson` succeeds, and `get_recent_lessons(limit=1,
minRelevance=relevance)` on the updated store returns exactly one lesson
carrying the returned id. -/
theorem c4_round_trip (mem : MemoryData) (inp : LessonInput)
    (hvalid : validInput inp)
    (hnew : ∀ l ∈ mem.lessons, pyStrLt l.date inp.date = true) :
    ∃ mem2 new_id,
      add_lesson mem inp = Except.ok (mem2, new_id)
      ∧ ∃ l, get_recent_lessons mem2.lessons 1 inp.relevance none none = [l]
          ∧ l.id = new_id := by
  refine ⟨⟨mem.lessons ++ [newLessonOf mem inp], mem.last_lesson_id + 1⟩,
    "L" ++ pad3 (mem.last_lesson_id + 1), add_lesson_ok mem inp hvalid,
    newLessonOf mem inp, ?_, rfl⟩
  show (List.insertionSort dateGe
      (List.filter (lessonPasses inp.relevance none none)
        (mem.lessons ++ [newLessonOf mem inp]))).take 1
    = [newLessonOf mem inp]
  rw [List.filter_append]
  have hsingle : List.filter (lessonPasses inp.relevance none none)
      [newLessonOf mem inp] = [newLessonOf mem inp] := by
    simp [newLesson_passes]
  rw [hsingle, insertionSort_append_newest (newLessonOf mem inp) _ ?_]
  · rfl
  · intro y hy
    exact hnew y (List.mem_of_mem_filter hy)

/-- C4 witness: adding a 2025-06-15 lesson to the seeded store (whose
lessons are all dated December 2024) and reading back with `limit = 1`,
`minRelevance = 4` returns the new lesson. -/
theorem c4_witness :
    validInput c4Input
    ∧ (∀ l ∈ seedMemory.lessons, pyStrLt l.date c4Input.date = true)
    ∧ ∃ mem2 new_id,
        add_lesson seedMemory c4Input = Except.ok (mem2, new_id)
        ∧ ∃ l, get_recent_lessons mem2.lessons 1 c4Input.relevance none none = [l]
            ∧ l.id = new_id :=
  ⟨by decide, by decide, c4_round_trip seedMemory c4Input (by decide) (by decide)⟩

/-! ## Claim C8 -/

/-- The lesson ids `L{k:03d}` are pairwise distinct across distinct `k`. -/
theorem lessonId_inj (a b : Nat) (h : ("L" ++ pad3 a : String) = "L" ++ pad3 b) :
    a = b := by
  have hd := congrArg String.data h
  simp only [String.data_append] at hd
  have hdata : (pad3 a).data = (pad3 b).data := by simpa using hd
  have hval := congrArg charsVal hdata
  rwa [charsVal_pad3, charsVal_pad3] at hval

/-- Invariant preservation: starting from a store whose ids are all of the
form `L{k:03d}` with `1 ≤ k ≤ last_lesson_id` and pairwise distinct, any
sequence of valid `add_lesson` calls succeeds, bumps `last_lesson_id` by
the number of calls, and preserves both the id shape and distinctness. -/
theorem addLessonsAll_invariant :
    ∀ (inputs : List LessonInput) (mem : MemoryData),
      (∀ i ∈ inputs, validInput i) →
      (∀ l ∈ mem.lessons, ∃ k, 1 ≤ k ∧ k ≤ mem.last_lesson_id
        ∧ l.id = "L" ++ pad3 k) →
      (mem.lessons.map (fun l => l.id)).Nodup →
      ∃ mem2, addLessonsAll mem inputs = some mem2
        ∧ mem2.last_lesson_id = mem.last_lesson_id + inputs.length
        ∧ (∀ l ∈ mem2.lessons, ∃ k, 1 ≤ k ∧ k ≤ mem2.last_lesson_id
            ∧ l.id = "L" ++ pad3 k)
        ∧ (mem2.lessons.map (fun l => l.id)).Nodup := by
  intro inputs
  induction inputs with
  | nil =>
    intro mem _ hbound hnodup
    exact ⟨mem, rfl, by simp, hbound, hnodup⟩
  | cons i is ih =>
    intro mem hv hbound hnodup
    have hvi : validInput i := hv i (by simp)
    have hstep := add_lesson_ok mem i hvi
    have hbound1 : ∀ l ∈ mem.lessons ++ [newLessonOf mem i],
        ∃ k, 1 ≤ k ∧ k ≤ mem.last_lesson_id + 1 ∧ l.id = "L" ++ pad3 k := by
      intro l hl
      rcases List.mem_append.mp hl with hl | hl
      · obtain ⟨k, hk1, hk2, hk3⟩ := hbound l hl
        exact ⟨k, hk1, by omega, hk3⟩
      · have hleq : l = newLessonOf mem i := by simpa using hl
        subst hleq
        exact ⟨mem.last_lesson_id + 1, by omega, le_refl _, rfl⟩
    have hnodup1 : ((mem.lessons ++ [newLessonOf mem i]).map (fun l => l.id)).Nodup := by
      rw [List.map_append, List.nodup_append]
      refine ⟨hnodup, by simp, ?_⟩
      intro x hx hx2
      simp only [List.map_cons, List.map_nil, List.mem_cons, List.not_mem_nil,
        or_false] at hx2
      rw [List.mem_map] at hx
      obtain ⟨l, hl, hlid⟩ := hx
      obtain ⟨k, hk1, hk2, hk3⟩ := hbound l hl
      have : k = mem.last_lesson_id + 1 := by
        apply lessonId_inj
        rw [← hk3, hlid, hx2]
        rfl
      omega
    obtain ⟨mem2, hrun, hlen, hb2, hn2⟩ :=
      ih ⟨mem.lessons ++ [newLessonOf mem i], mem.last_lesson_id + 1⟩
        (fun j hj => hv j (by simp [hj])) hbound1 hnodup1
    refine ⟨mem2, ?_, ?_, hb2, hn2⟩
    · simp only [addLessonsAll, hstep]
      exact hrun
    · simp only [List.length_cons]
      simp only at hlen
      omega

/-- C8: starting from the seeded store (`last_lesson_id = 6`, ids
`L001`-`L006`), after `N` successful `add_lesson` calls the counter equals
`6 + N` and no two stored lessons share an id. -/
theorem c8_strictly_increasing_unique_ids (inputs : List LessonInput)
    (h : ∀ i ∈ inputs, validInput i) :
    ∃ mem2, addLessonsAll seedMemory inputs = some mem2
      ∧ mem2.last_lesson_id = 6 + inputs.length
      ∧ (mem2.lessons.map (fun l => l.id)).Nodup := by
  have hseedb : ∀ l ∈ seedMemory.lessons,
      ∃ k, 1 ≤ k ∧ k ≤ seedMemory.last_lesson_id ∧ l.id = "L" ++ pad3 k := by
    intro l hl
    simp only [seedMemory, seedLessons, List.mem_cons, List.not_mem_nil,
      or_false] at hl
    rcases hl with rfl | rfl | rfl | rfl | rfl | rfl
    · exact ⟨1, by decide, by decide, by decide⟩
    · exact ⟨2, by decide, by decide, by decide⟩
    · exact ⟨3, by decide, by decide, by decide⟩
    · exact ⟨4, by decide, by decide, by decide⟩
    · exact ⟨5, by decide, by decide, by decide⟩
    · exact ⟨6, by decide, by decide, by decide⟩
  have hseedn : (seedMemory.lessons.map (fun l => l.id)).Nodup := by decide
  obtain ⟨mem2, h1, h2, _, h4⟩ :=
    addLessonsAll_invariant inputs seedMemory h hseedb hseedn
  exact ⟨mem2, h1, h2, h4⟩

/-- C8 witness: two valid additions to the seeded store. -/
theorem c8_witness :
    (∀ i ∈ ([c4Input, c4Input] : List LessonInput), validInput i)
    ∧ ∃ mem2, addLessonsAll seedMemory [c4Input, c4Input] = some mem2
        ∧ mem2.last_lesson_id = 6 + ([c4Input, c4Input] : List LessonInput).length
        ∧ (mem2.lessons.map (fun l => l.id)).Nodup :=
  ⟨by decide, c8_strictly_increasing_unique_ids [c4Input, c4Input] (by decide)⟩
